import Mathlib

/-!
Verification of the batch file-mutation engine of the desktop
picture-compression tool (`src/electron/module/handleFile.ts`).

The TypeScript module is shallowly embedded: JavaScript strings become
`List Char`, the filesystem becomes an explicit association list from
paths to entries, every `async` function that mutates the filesystem
becomes a pure function threading that state, and a thrown error becomes
`Except String`.  The unbounded "probe until a free name is found" loops
of the naming policy are embedded with explicit fuel (`fs.length + 1`
candidates suffice, which is proved below).  Node's `path` helpers are
modelled for the paths this engine actually handles: absolute,
`/`-separated, already-normalized paths whose final segment is an
ordinary file name.
-/

set_option maxRecDepth 10000

namespace HandleFile

/-- JavaScript strings, modelled as their lists of Unicode scalar values. -/
abbrev JStr := List Char

/-- Shorthand turning a Lean string literal into the model's string type. -/
def jstr (s : String) : JStr := s.data

/-- Decimal digit character (`'0'`–`'9'`) for a digit `d < 10`. -/
def digitChar (d : Nat) : Char := Char.ofNat (48 + d)

/-- Fuel-bounded decimal rendering of a natural number, most significant
digit first; `natDigits` below always supplies enough fuel. -/
def natDigitsAux : Nat → Nat → JStr
  | 0, _ => []
  | fuel + 1, n =>
    if n < 10 then [digitChar n]
    else natDigitsAux fuel (n / 10) ++ [digitChar (n % 10)]

/-- Decimal rendering of a natural number, as JavaScript template-literal
interpolation (`${n}`) renders a non-negative integer. -/
def natDigits (n : Nat) : JStr := natDigitsAux (n + 1) n

/-- Numeric value of a digit string; this is `parseInt(ds, 10)` on a
non-empty all-digit string. -/
def digitsVal (ds : JStr) : Nat := ds.foldl (fun a c => 10 * a + (c.toNat - 48)) 0

/-- JavaScript `String.prototype.trim`: strip leading and trailing
whitespace. -/
def jsTrim (s : JStr) : JStr :=
  ((s.dropWhile Char.isWhitespace).reverse.dropWhile Char.isWhitespace).reverse

/-- JavaScript `String.prototype.length`: the UTF-16 code-unit count
(characters outside the basic multilingual plane count twice). -/
def utf16Len (s : JStr) : Nat :=
  (s.map (fun c => if c.toNat < 65536 then 1 else 2)).sum

/-- JavaScript `String.prototype.toLowerCase`, restricted to the ASCII
letters, which is all the extension strings this module lowercases use. -/
def lowerStr (s : JStr) : JStr := s.map Char.toLower

/-! ## Model of Node's `path` module (POSIX flavour)

Restricted to the shapes this engine feeds it: absolute normalized
directories and file names whose base is not made of dots only. -/

/-- Final path component: everything after the last `/`. -/
def fileNameL (p : JStr) : JStr := (p.reverse.takeWhile (fun c => c ≠ '/')).reverse

/-- Trailing run of a file name's characters after its last dot
(reversed), used by the `extname` model. -/
def extCandL (f : JStr) : JStr := f.reverse.takeWhile (fun c => c ≠ '.')

/-- Node `path.extname`: the suffix of the final component from its last
dot, empty when there is no dot or the dot starts the component. -/
def extnameL (p : JStr) : JStr :=
  if fileNameL p = ['.', '.'] then []
  else if (extCandL (fileNameL p)).length + 1 < (fileNameL p).length then
    '.' :: (extCandL (fileNameL p)).reverse
  else []

/-- Node `path.basename(p, path.extname p)`: the final component with its
extension removed. -/
def baseNoExtL (p : JStr) : JStr :=
  (fileNameL p).take ((fileNameL p).length - (extnameL p).length)

/-- Node `path.dirname` on a normalized path without a trailing slash. -/
def dirnameL (p : JStr) : JStr :=
  if ((p.reverse.dropWhile (fun c => c ≠ '/')).drop 1).reverse = [] then
    (if p.take 1 = ['/'] then ['/'] else ['.'])
  else ((p.reverse.dropWhile (fun c => c ≠ '/')).drop 1).reverse

/-- Node `path.resolve dir seg` (equally `path.join dir seg`) for an
absolute normalized `dir` and a single plain segment. -/
def joinP (dir seg : JStr) : JStr := if dir = ['/'] then '/' :: seg else dir ++ '/' :: seg

/-- Absolute POSIX path: starts with a slash. -/
def isAbsL (p : JStr) : Bool := p.take 1 = ['/']

/-- An output directory in the normal form `path.resolve` produces:
absolute and without a trailing slash (or the bare root). -/
def NormDir (d : JStr) : Prop :=
  d = ['/'] ∨ (isAbsL d = true ∧ d.getLast? ≠ some '/')

/-! ## Filesystem model

A flat association list from absolute paths to entries.  The entry kind
distinguishes what `fs.stat` reports (`isFile` / `isDirectory` / other,
e.g. a socket); the permission field drives the unlink behaviour seen by
the permission-remediation ladder of `deleteFile`: `normal` entries
unlink directly, `fixable` entries fail the first unlink with
`EACCES`/`EPERM` but succeed after the `chmod`/`xattr` ladder, `locked`
entries still fail the retried unlink. -/

inductive EntKind where
  | file
  | dir
  | other
deriving DecidableEq, Repr

inductive Perm where
  | normal
  | fixable
  | locked
deriving DecidableEq, Repr

structure Entry where
  path : JStr
  kind : EntKind
  perm : Perm
deriving DecidableEq, Repr

abbrev FS := List Entry

/-- Model of `fs.stat`: the kind of the entry at `p`, or `none` when the
call would throw `ENOENT`. -/
def fsStat (fs : FS) (p : JStr) : Option EntKind :=
  (fs.find? (fun e => e.path == p)).map (fun e => e.kind)

/-- Record a freshly written regular file (sharp's `toFile`). -/
def fsWrite (fs : FS) (p : JStr) : FS := ⟨p, .file, .normal⟩ :: fs

/-- Record a freshly created directory (`fs.mkdir { recursive: true }`);
ancestors are kept implicit in this flat model. -/
def fsMkdir (fs : FS) (p : JStr) : FS := ⟨p, .dir, .normal⟩ :: fs

/-! ## Naming policy

`handleFile.ts` lines 426–543: `nextOutputPath`,
`nextConvertedOutputPath` and `nextWatermarkOutputPath` are the same
algorithm with different tags, so the embedding shares one core.  The
`while (true)` probe loop is given `fs.length + 1` fuel, which theorem
`nextTagged_total` below proves is always enough. -/

/-- Operation tag `"_压缩"` used by `nextOutputPath`. -/
def compressTag : JStr := jstr "_压缩"

/-- Operation tag `"_转换"` used by `nextConvertedOutputPath`. -/
def convertTag : JStr := jstr "_转换"

/-- Operation tag `"_水印"` used by `nextWatermarkOutputPath`. -/
def watermarkTag : JStr := jstr "_水印"

/-- One anchored attempt of the regex `^(.*)<tag>(?:_(\d+))?$` with the
group `(.*)` fixed to the first `k` characters: succeeds when the rest of
`base` is exactly the tag, optionally followed by `_` and a non-empty
digit string (returned as the capture). -/
def tagCapAt (base tag : JStr) (k : Nat) : Option (Option JStr) :=
  let rest := base.drop k
  if rest.take tag.length = tag then
    match rest.drop tag.length with
    | [] => some none
    | '_' :: ds => if ds ≠ [] ∧ ds.all (fun c => c.isDigit) then some (some ds) else none
    | _ => none
  else none

/-- Greedy search for the regex match: try the longest root first, as the
greedy `(.*)` of `base.match(/^(.*)_压缩(?:_(\d+))?$/)` does. -/
def tagMatchGo (base tag : JStr) : Nat → Option (JStr × Option JStr)
  | 0 =>
    match tagCapAt base tag 0 with
    | some cap => some ([], cap)
    | none => none
  | k + 1 =>
    match tagCapAt base tag (k + 1) with
    | some cap => some (base.take (k + 1), cap)
    | none => tagMatchGo base tag k

/-- Model of `base.match(/^(.*)<tag>(?:_(\d+))?$/)`: the root capture and
the optional digit capture. -/
def tagMatch (base tag : JStr) : Option (JStr × Option JStr) :=
  tagMatchGo base tag base.length

/-- Lines 431–433: the root and the first suffix number to try.
`const root = m ? m[1] : base; let n = m && m[2] ? parseInt(m[2]) + 1 : m ? 1 : 0`. -/
def tagStart (base tag : JStr) : JStr × Nat :=
  match tagMatch base tag with
  | none => (base, 0)
  | some (root, none) => (root, 1)
  | some (root, some ds) => (root, digitsVal ds + 1)

/-- Line 435 and 444: `candidateBase` plus the extension —
`n = 0` gives `root<tag>ext`, `n ≥ 1` gives `root<tag>_<n>ext`. -/
def candName (root tag ext : JStr) (n : Nat) : JStr :=
  (if n = 0 then root ++ tag else root ++ tag ++ '_' :: natDigits n) ++ ext

/-- Lines 438–456: the probe loop.  Stat the candidate; whatever kind of
entry is found (file, directory or other), bump the number and retry;
return the candidate as soon as the stat throws (path free). -/
def nextTaggedAux (fs : FS) (dir root tag ext : JStr) : Nat → Nat → Option JStr
  | _, 0 => none
  | n, fuel + 1 =>
    let c := joinP dir (candName root tag ext n)
    match fsStat fs c with
    | some _ => nextTaggedAux fs dir root tag ext (if n = 0 then 1 else n + 1) fuel
    | none => some c

/-- Fuel that always suffices for the probe loop (one more candidate than
there are filesystem entries). -/
def namingFuel (fs : FS) : Nat := fs.length + 1

/-- Shared body of the three naming functions. -/
def nextTagged (fs : FS) (outputDir inputPath tag ext : JStr) : Option JStr :=
  let s := tagStart (baseNoExtL inputPath) tag
  nextTaggedAux fs outputDir s.1 tag ext s.2 (namingFuel fs)

/-- Lines 426–457, `nextOutputPath`: compress naming.  `outputDir` is
already the resolved absolute directory (`path.resolve` of an absolute
normalized path is the identity). -/
def nextOutputPath (fs : FS) (outputDir inputPath : JStr) : Option JStr :=
  nextTagged fs outputDir inputPath compressTag (extnameL inputPath)

/-- Lines 466–510, `nextConvertedOutputPath`: convert naming; the
candidate carries `targetExt` while the base is still stripped of the
input's own extension. -/
def nextConvertedOutputPath (fs : FS) (outputDir inputPath targetExt : JStr) : Option JStr :=
  nextTagged fs outputDir inputPath convertTag targetExt

/-- Lines 512–543, `nextWatermarkOutputPath`: watermark naming. -/
def nextWatermarkOutputPath (fs : FS) (outputDir inputPath : JStr) : Option JStr :=
  nextTagged fs outputDir inputPath watermarkTag (extnameL inputPath)

/-! ## Decimal rendering lemmas -/

theorem digitsVal_snoc (a : JStr) (c : Char) :
    digitsVal (a ++ [c]) = 10 * digitsVal a + (c.toNat - 48) := by
  simp [digitsVal, List.foldl_append]

theorem digitChar_toNat {d : Nat} (h : d < 10) : (digitChar d).toNat = 48 + d := by
  interval_cases d <;> decide

theorem natDigitsAux_val : ∀ fuel n, n < fuel → digitsVal (natDigitsAux fuel n) = n := by
  intro fuel
  induction fuel with
  | zero => intro n h; omega
  | succ f ih =>
    intro n h
    by_cases h10 : n < 10
    · simp [natDigitsAux, h10, digitsVal, digitChar_toNat h10]
    · have hlt : n / 10 < n := Nat.div_lt_self (by omega) (by norm_num)
      have hdiv : n / 10 < f := by omega
      have hm : n % 10 < 10 := Nat.mod_lt _ (by norm_num)
      simp only [natDigitsAux, if_neg h10]
      rw [digitsVal_snoc, ih _ hdiv, digitChar_toNat hm]
      omega

theorem natDigits_val (n : Nat) : digitsVal (natDigits n) = n :=
  natDigitsAux_val _ n (Nat.lt_succ_self n)

theorem natDigits_inj : Function.Injective natDigits := by
  intro m n h
  have hv := congrArg digitsVal h
  rwa [natDigits_val, natDigits_val] at hv

theorem natDigitsAux_digits :
    ∀ fuel n, n < fuel → ∀ c ∈ natDigitsAux fuel n, 48 ≤ c.toNat ∧ c.toNat ≤ 57 := by
  intro fuel
  induction fuel with
  | zero => intro n h; omega
  | succ f ih =>
    intro n h c hc
    by_cases h10 : n < 10
    · simp [natDigitsAux, h10] at hc
      subst hc
      rw [digitChar_toNat h10]
      omega
    · have hlt : n / 10 < n := Nat.div_lt_self (by omega) (by norm_num)
      have hm : n % 10 < 10 := Nat.mod_lt _ (by norm_num)
      simp only [natDigitsAux, if_neg h10, List.mem_append, List.mem_singleton] at hc
      rcases hc with hc | hc
      · exact ih _ (by omega) c hc
      · subst hc
        rw [digitChar_toNat hm]
        omega

theorem natDigits_digits (n : Nat) : ∀ c ∈ natDigits n, 48 ≤ c.toNat ∧ c.toNat ≤ 57 :=
  natDigitsAux_digits _ n (Nat.lt_succ_self n)

/-! ## Naming policy: freshness and totality -/

/-- A candidate returned by the probe loop did not exist at selection
time: the only `return` of the loop is behind a failed `fs.stat`. -/
theorem nextTaggedAux_fresh (fs : FS) (dir root tag ext : JStr) :
    ∀ fuel n p, nextTaggedAux fs dir root tag ext n fuel = some p → fsStat fs p = none := by
  intro fuel
  induction fuel with
  | zero => intro n p h; simp [nextTaggedAux] at h
  | succ f ih =>
    intro n p h
    simp only [nextTaggedAux] at h
    split at h
    · exact ih _ p h
    · cases h
      assumption

/-- Suffix number of the `k`-th candidate the loop probes when it starts
at suffix number `n`. -/
def stepN (n k : Nat) : Nat := if n = 0 then k else n + k

theorem stepN_zero (n : Nat) : stepN n 0 = n := by
  simp only [stepN]
  split <;> omega

theorem stepN_inj (n : Nat) : Function.Injective (stepN n) := by
  intro a b
  simp only [stepN]
  split <;> omega

/-- The loop succeeds as soon as any of the candidates within its fuel is
free. -/
theorem nextTaggedAux_some_of_free (fs : FS) (dir root tag ext : JStr) :
    ∀ fuel n,
      (∃ k < fuel, fsStat fs (joinP dir (candName root tag ext (stepN n k))) = none) →
      (nextTaggedAux fs dir root tag ext n fuel).isSome := by
  intro fuel
  induction fuel with
  | zero =>
    intro n h
    rcases h with ⟨k, hk, _⟩
    omega
  | succ f ih =>
    intro n h
    rcases h with ⟨k, hk, hfree⟩
    simp only [nextTaggedAux]
    cases hst : fsStat fs (joinP dir (candName root tag ext n)) with
    | none => simp
    | some e =>
      simp only
      apply ih
      have hk0 : k ≠ 0 := by
        intro h0
        rw [h0, stepN_zero] at hfree
        rw [hst] at hfree
        cases hfree
      obtain ⟨k', rfl⟩ := Nat.exists_eq_succ_of_ne_zero hk0
      refine ⟨k', by omega, ?_⟩
      have hstep : stepN n (k' + 1) = stepN (if n = 0 then 1 else n + 1) k' := by
        simp only [stepN]
        split <;> split <;> omega
      rwa [hstep] at hfree

theorem candName_inj (root tag ext : JStr) :
    Function.Injective (candName root tag ext) := by
  intro m m' h
  simp only [candName] at h
  by_cases hm : m = 0 <;> by_cases hm' : m' = 0
  · omega
  · rw [if_pos hm, if_neg hm'] at h
    have := congrArg List.length h
    simp [List.length_append] at this
    omega
  · rw [if_neg hm, if_pos hm'] at h
    have := congrArg List.length h
    simp [List.length_append] at this
    omega
  · rw [if_neg hm, if_neg hm'] at h
    have h2 : natDigits m = natDigits m' := by
      have h3 := List.append_cancel_right h
      have h4 := List.append_cancel_left h3
      exact (List.cons.inj h4).2
    exact natDigits_inj h2

theorem joinP_seg_inj (dir : JStr) : Function.Injective (joinP dir) := by
  intro a b h
  simp only [joinP] at h
  split at h
  · exact (List.cons.inj h).2
  · have h2 := List.append_cancel_left h
    exact (List.cons.inj h2).2

theorem fsStat_isSome_mem {fs : FS} {p : JStr} (h : (fsStat fs p).isSome) :
    p ∈ fs.map Entry.path := by
  unfold fsStat at h
  cases hf : fs.find? (fun e => e.path == p) with
  | none => rw [hf] at h; simp at h
  | some e =>
    have hm := List.mem_of_find?_eq_some hf
    have hp := List.find?_some hf
    have hpe : e.path = p := by simpa using hp
    exact hpe ▸ List.mem_map_of_mem _ hm

/-- Pigeonhole: among `fs.length + 1` pairwise-distinct candidates at
least one is absent from the filesystem. -/
theorem exists_free_candidate (fs : FS) (dir root tag ext : JStr) (n : Nat) :
    ∃ k < fs.length + 1,
      fsStat fs (joinP dir (candName root tag ext (stepN n k))) = none := by
  by_contra hc
  push_neg at hc
  have hmem : ∀ k ∈ Finset.range (fs.length + 1),
      joinP dir (candName root tag ext (stepN n k)) ∈ (fs.map Entry.path).toFinset := by
    intro k hk
    rw [Finset.mem_range] at hk
    have hs := hc k hk
    rw [List.mem_toFinset]
    exact fsStat_isSome_mem (Option.isSome_iff_ne_none.mpr hs)
  have hinj : Set.InjOn (fun k => joinP dir (candName root tag ext (stepN n k)))
      (Finset.range (fs.length + 1)) := by
    intro a _ b _ hab
    exact stepN_inj n (candName_inj root tag ext (joinP_seg_inj dir hab))
  have hcard := Finset.card_le_card_of_injOn _ hmem hinj
  rw [Finset.card_range] at hcard
  have hle : (fs.map Entry.path).toFinset.card ≤ fs.length := by
    calc (fs.map Entry.path).toFinset.card ≤ (fs.map Entry.path).length :=
          (fs.map Entry.path).toFinset_card_le
      _ = fs.length := List.length_map _ _
  omega

/-- The probe loop's fuel always suffices: each naming function returns a
candidate on every input. -/
theorem nextTagged_total (fs : FS) (outputDir inputPath tag ext : JStr) :
    (nextTagged fs outputDir inputPath tag ext).isSome := by
  unfold nextTagged namingFuel
  exact nextTaggedAux_some_of_free fs outputDir _ tag ext (fs.length + 1) _
    (exists_free_candidate fs outputDir _ tag ext _)

/-- Freshness carried to the wrapper. -/
theorem nextTagged_fresh {fs : FS} {outputDir inputPath tag ext p : JStr}
    (h : nextTagged fs outputDir inputPath tag ext = some p) : fsStat fs p = none :=
  nextTaggedAux_fresh fs outputDir _ tag ext _ _ p h

/-! ## Shape of the generated candidates -/

/-- Every candidate the loop returns is `dir/<candidate name>` for some
suffix number. -/
theorem nextTaggedAux_shape (fs : FS) (dir root tag ext : JStr) :
    ∀ fuel n p, nextTaggedAux fs dir root tag ext n fuel = some p →
      ∃ m, p = joinP dir (candName root tag ext m) := by
  intro fuel
  induction fuel with
  | zero => intro n p h; simp [nextTaggedAux] at h
  | succ f ih =>
    intro n p h
    simp only [nextTaggedAux] at h
    split at h
    · exact ih _ p h
    · cases h
      exact ⟨n, rfl⟩

theorem fileNameL_no_slash (p : JStr) : ∀ c ∈ fileNameL p, c ≠ '/' := by
  intro c hc
  rw [fileNameL, List.mem_reverse] at hc
  have := List.mem_takeWhile_imp hc
  simpa using this

theorem extnameL_no_slash (p : JStr) : ∀ c ∈ extnameL p, c ≠ '/' := by
  intro c hc
  rw [extnameL] at hc
  split at hc
  · simp at hc
  · split at hc
    · rcases List.mem_cons.mp hc with h | h
      · subst h
        decide
      · rw [List.mem_reverse, extCandL] at h
        have h2 := (List.takeWhile_sublist _).subset h
        rw [List.mem_reverse] at h2
        exact fileNameL_no_slash p c h2
    · simp at hc

theorem baseNoExtL_no_slash (p : JStr) : ∀ c ∈ baseNoExtL p, c ≠ '/' := by
  intro c hc
  rw [baseNoExtL] at hc
  exact fileNameL_no_slash p c ((List.take_sublist _ _).subset hc)

theorem tagMatchGo_root {base tag root : JStr} {cap : Option JStr} :
    ∀ k, tagMatchGo base tag k = some (root, cap) → ∃ j, root = base.take j := by
  intro k
  induction k with
  | zero =>
    intro h
    simp only [tagMatchGo] at h
    split at h
    · cases h
      exact ⟨0, rfl⟩
    · cases h
  | succ k ih =>
    intro h
    simp only [tagMatchGo] at h
    split at h
    · cases h
      exact ⟨k + 1, rfl⟩
    · exact ih h

theorem tagStart_root_sub (base tag : JStr) : ∀ c ∈ (tagStart base tag).1, c ∈ base := by
  intro c hc
  unfold tagStart at hc
  rcases hm : tagMatch base tag with _ | ⟨root, cap⟩
  · rw [hm] at hc
    simpa using hc
  · rw [hm] at hc
    obtain ⟨j, hj⟩ := tagMatchGo_root _ hm
    cases cap with
    | none =>
      simp only at hc
      exact (List.take_sublist _ _).subset (hj ▸ hc)
    | some ds =>
      simp only at hc
      exact (List.take_sublist _ _).subset (hj ▸ hc)

theorem tagStart_root_no_slash (p tag : JStr) :
    ∀ c ∈ (tagStart (baseNoExtL p) tag).1, c ≠ '/' := by
  intro c hc
  exact baseNoExtL_no_slash p c (tagStart_root_sub _ tag c hc)

theorem candName_no_slash {root tag ext : JStr} (hr : ∀ c ∈ root, c ≠ '/')
    (ht : ∀ c ∈ tag, c ≠ '/') (he : ∀ c ∈ ext, c ≠ '/') (n : Nat) :
    ∀ c ∈ candName root tag ext n, c ≠ '/' := by
  intro c hc
  rw [candName] at hc
  by_cases hn : n = 0
  · rw [if_pos hn] at hc
    simp only [List.mem_append] at hc
    rcases hc with (h | h) | h
    · exact hr c h
    · exact ht c h
    · exact he c h
  · rw [if_neg hn] at hc
    rcases List.mem_append.mp hc with h | h
    · rcases List.mem_append.mp h with h1 | h1
      · rcases List.mem_append.mp h1 with h2 | h2
        · exact hr c h2
        · exact ht c h2
      · rcases List.mem_cons.mp h1 with h3 | h3
        · subst h3
          decide
        · have hd := natDigits_digits n c h3
          intro hcontra
          subst hcontra
          revert hd
          decide
    · exact he c h

theorem candName_ne_nil {root tag ext : JStr} (ht : tag ≠ []) (n : Nat) :
    candName root tag ext n ≠ [] := by
  rw [candName]
  intro h
  have h1 := (List.append_eq_nil.mp h).1
  by_cases hn : n = 0
  · rw [if_pos hn] at h1
    exact ht (List.append_eq_nil.mp h1).2
  · rw [if_neg hn] at h1
    exact List.cons_ne_nil _ _ (List.append_eq_nil.mp h1).2

theorem dropWhile_slash_marker {seg : JStr} (hns : ∀ c ∈ seg, c ≠ '/') (tail : JStr) :
    (seg.reverse ++ '/' :: tail).dropWhile (fun c => c ≠ '/') = '/' :: tail := by
  rw [List.dropWhile_append]
  have h1 : seg.reverse.dropWhile (fun c => c ≠ '/') = [] := by
    rw [List.dropWhile_eq_nil_iff]
    intro x hx
    simpa using hns x (List.mem_reverse.mp hx)
  rw [h1]
  simp [List.dropWhile_cons]

/-- Joining a plain non-empty segment onto a normalized absolute
directory yields a path whose `path.dirname` is that directory:
generated names never escape the output directory. -/
theorem dirnameL_joinP {dir seg : JStr} (hdir : NormDir dir)
    (hns : ∀ c ∈ seg, c ≠ '/') : dirnameL (joinP dir seg) = dir := by
  by_cases hroot : dir = ['/']
  · subst hroot
    rw [joinP, if_pos rfl, dirnameL]
    simp only [List.reverse_cons]
    rw [show seg.reverse ++ ['/'] = seg.reverse ++ '/' :: [] from rfl,
      dropWhile_slash_marker hns]
    simp
  · rcases hdir with h | ⟨habs, _⟩
    · exact absurd h hroot
    have hdirne : dir ≠ [] := by
      intro h0
      rw [h0] at habs
      simp [isAbsL] at habs
    rw [joinP, if_neg hroot, dirnameL]
    have hrev : (dir ++ '/' :: seg).reverse = seg.reverse ++ '/' :: dir.reverse := by
      simp [List.reverse_append]
    rw [hrev, dropWhile_slash_marker hns]
    simp [hdirne]

/-- Joining onto an absolute directory stays absolute. -/
theorem isAbsL_joinP {dir : JStr} (habs : isAbsL dir = true) (seg : JStr) :
    isAbsL (joinP dir seg) = true := by
  rw [joinP]
  split
  · simp [isAbsL]
  · cases dir with
    | nil => simp [isAbsL] at habs
    | cons c cs =>
      simp [isAbsL] at habs ⊢
      exact habs

/-- A normalized directory is absolute. -/
theorem NormDir.abs {dir : JStr} (h : NormDir dir) : isAbsL dir = true := by
  rcases h with h | ⟨h, _⟩
  · subst h
    decide
  · exact h

/-! ## Results and directory resolution

`CompressResult`, `ConvertResult` and `WatermarkResult` (lines 278–297)
are the same record shape, embedded once as `ItemResult`; an absent
`error` field is `none` and the empty `outputPath` of a failure is `[]`. -/

structure ItemResult where
  inputPath : JStr
  outputPath : JStr
  success : Bool
  error : Option JStr
deriving DecidableEq, Repr

structure BatchResult where
  success : Bool
  results : List ItemResult
deriving DecidableEq, Repr

/-- Failure item `{ inputPath, outputPath: "", success: false, error }`. -/
def failItem (inputPath msg : JStr) : ItemResult :=
  { inputPath := inputPath, outputPath := [], success := false, error := some msg }

/-- Lines 303–308, `isSupportedFormat`: lowercase the extension and test
membership in the supported list. -/
def isSupportedFormat (ext : JStr) : Bool :=
  [jstr ".jpg", jstr ".jpeg", jstr ".png", jstr ".webp", jstr ".tif", jstr ".tiff",
    jstr ".avif"].contains (lowerStr ext)

/-- Lines 313–361, `ensureDir`: an existing directory is fine, an
existing non-directory throws, a missing path is created (recursively —
ancestors stay implicit in the flat filesystem model; the `EEXIST`
concurrent-creation re-check cannot fire in a sequential model). -/
def ensureDir (fs : FS) (dir : JStr) : Except JStr FS :=
  match fsStat fs dir with
  | some .dir => .ok fs
  | some _ => .error (jstr "路径已存在但不是目录: " ++ dir)
  | none => .ok (fsMkdir fs dir)

/-- Lines 363–417, `resolveOutputDir`.  The input is restricted to the
model's absolute normalized paths, so `path.resolve(dir.trim())` is
`jsTrim dir`, and `fs.realpath` is the identity (no symlinks in the
model).  When the trimmed path names a file its parent directory is used
instead; when it is missing it is created (the code's two creation
routes — parent present or absent — both reduce to `ensureDir`). -/
def resolveOutputDir (fs : FS) (dir : JStr) : Except JStr (JStr × FS) :=
  if jsTrim dir = [] then .error (jstr "输出目录路径不能为空")
  else
    match fsStat fs (jsTrim dir) with
    | some .dir =>
      match ensureDir fs (jsTrim dir) with
      | .error e => .error e
      | .ok fs1 => .ok (jsTrim dir, fs1)
    | some _ =>
      match ensureDir fs (dirnameL (jsTrim dir)) with
      | .error e => .error e
      | .ok fs1 => .ok (dirnameL (jsTrim dir), fs1)
    | none =>
      match ensureDir fs (jsTrim dir) with
      | .error e => .error e
      | .ok fs1 => .ok (jsTrim dir, fs1)

/-! ## Batch compression (lines 557–689, `compressFiles`)

The sharp re-encode pipeline is the consumed image-codec capability: a
`Codec` maps an input path and quality to `none` (encode and write
succeed) or `some message` (the pipeline throws, caught per item).
`Promise.all` over the per-file tasks is linearized left to right; the
shape of the per-item results does not depend on that order, only the
interleaving of filesystem probes does (the documented
probe-then-write race). -/

def Codec := JStr → Nat → Option JStr

/-- Message of the `fs.stat` rejection on a missing input, as caught by
the per-item wrapper. -/
def statMissingMsg : JStr := jstr "ENOENT: no such file or directory"

/-- Lines 573–673: one compression task.  Every failure is caught and
returned as a failure item; the filesystem state is threaded. -/
def compressOne (codec : Codec) (q : Nat) (targetDir : JStr) (fs : FS) (inputPath : JStr) :
    ItemResult × FS :=
  match fsStat fs inputPath with
  | none => (failItem inputPath statMissingMsg, fs)
  | some k =>
    if k ≠ .file then (failItem inputPath (jstr "not a file"), fs)
    else if ¬ isSupportedFormat (lowerStr (extnameL inputPath)) then
      (failItem inputPath (jstr "unsupported format"), fs)
    else
      match nextOutputPath fs targetDir inputPath with
      | none => (failItem inputPath (jstr "naming fuel exhausted"), fs)
      | some outputPath =>
        match ensureDir fs (dirnameL outputPath) with
        | .error e => (failItem inputPath (jstr "无法创建输出目录: " ++ e), fs)
        | .ok fs1 =>
          match codec inputPath q with
          | some msg => (failItem inputPath msg, fs1)
          | none =>
            ({ inputPath := inputPath, outputPath := outputPath, success := true,
               error := none }, fsWrite fs1 outputPath)

/-- Sequential fan-out over the task list, threading the filesystem. -/
def runAll (step : FS → JStr → ItemResult × FS) : FS → List JStr → List ItemResult × FS
  | fs, [] => ([], fs)
  | fs, p :: ps =>
    ((step fs p).1 :: (runAll step (step fs p).2 ps).1, (runAll step (step fs p).2 ps).2)

/-- Lines 557–689, `compressFiles`: empty input short-circuits before
any directory work; the quality defaults to 80 outside `[1, 100]`; a
`resolveOutputDir` failure rejects the whole call; otherwise every input
gets exactly one result and overall success is `every(r => r.success)`. -/
def compressFiles (codec : Codec) (fs : FS) (filePaths : List JStr) (outputDir : JStr)
    (quality : Option Nat) : Except JStr (BatchResult × FS) :=
  if filePaths.isEmpty then .ok ({ success := true, results := [] }, fs)
  else
    match resolveOutputDir fs outputDir with
    | .error e => .error e
    | .ok (targetDir, fs1) =>
      ((fun out => .ok ({ success := out.1.all (fun r => r.success), results := out.1 }, out.2))
        (runAll
          (compressOne codec
            (match quality with
              | some q => if 1 ≤ q ∧ q ≤ 100 then q else 80
              | none => 80)
            targetDir)
          fs1 filePaths))

/-! ## Batch deletion (lines 17–200, `deleteFile`) -/

/-- Does `pre` lead the string `p`?  Used for the recursive removal of a
directory subtree. -/
def leadsTo (pre p : JStr) : Bool := p.take pre.length == pre

/-- Effect of `fs.unlink`. -/
def removeEntry (fs : FS) (p : JStr) : FS := fs.filter (fun e => !(e.path == p))

/-- Effect of `fs.rm(p, { recursive: true, force: true })`. -/
def removeTree (fs : FS) (p : JStr) : FS :=
  fs.filter (fun e => !(e.path == p || leadsTo (p ++ ['/']) e.path))

/-- Lines 23–186: delete one path.  `path.resolve` is the identity on
the model's absolute paths; a failed stat records a failure; a directory
is removed recursively with force semantics; a file is unlinked, with
the permission-remediation ladder (parent chmod, own chmod, xattr strip,
retry) deciding `fixable` versus `locked` entries. -/
def deleteOne (fs : FS) (p : JStr) : Bool × FS :=
  match fs.find? (fun e => e.path == p) with
  | none => (false, fs)
  | some e =>
    match e.kind with
    | .dir => (true, removeTree fs p)
    | _ =>
      match e.perm with
      | .locked => (false, fs)
      | _ => (true, removeEntry fs p)

/-- Sequential linearization of the `Promise.all` over the paths. -/
def deleteAll : FS → List JStr → List Bool × FS
  | fs, [] => ([], fs)
  | fs, p :: ps =>
    ((deleteOne fs p).1 :: (deleteAll (deleteOne fs p).2 ps).1,
      (deleteAll (deleteOne fs p).2 ps).2)

/-- Lines 17–200, `deleteFile`: empty input returns `true` untouched;
otherwise all paths are attempted and the result is the conjunction. -/
def deleteFile (fs : FS) (filePaths : List JStr) : Bool × FS :=
  if filePaths.isEmpty then (true, fs)
  else ((deleteAll fs filePaths).1.all id, (deleteAll fs filePaths).2)

/-! ## Rename (lines 214–269, `renameFile`) -/

/-- Lines 237–243: the target base name; a file whose new name carries no
extension keeps the old extension. -/
def renameTargetBase (filePath sanitized : JStr) (k : EntKind) : JStr :=
  if k = .file then
    (if extnameL sanitized = [] ∧ extnameL filePath ≠ [] then sanitized ++ extnameL filePath
      else sanitized)
  else sanitized

/-- Line 245: the computed target path `path.join(dir, base)`. -/
def renameTargetPath (filePath sanitized : JStr) (k : EntKind) : JStr :=
  joinP (dirnameL filePath) (renameTargetBase filePath sanitized k)

/-- Effect of `fs.rename` on the flat filesystem. -/
def renameEntry (fs : FS) (src dst : JStr) : FS :=
  fs.map (fun e => if e.path == src then { e with path := dst } else e)

/-- Lines 214–269, `renameFile`: validate, compute the target, succeed
without touching the filesystem when the target equals the source, throw
on an existing distinct target, and otherwise rename.  In the model the
final `fs.rename` cannot fail (source exists, target free), matching the
code's rethrow wrapper never firing. -/
def renameFile (fs : FS) (filePath newName : JStr) : Except JStr (Bool × FS) :=
  if filePath = [] ∨ jsTrim newName = [] then .error (jstr "文件路径或新名称无效")
  else if ((jsTrim newName).contains '/' || (jsTrim newName).contains (Char.ofNat 92)) then
    .error (jstr "新名称不能包含路径分隔符")
  else
    match fsStat fs filePath with
    | none => .error (jstr "源路径不存在或不可访问")
    | some k =>
      if renameTargetPath filePath (jsTrim newName) k = filePath then .ok (true, fs)
      else if (fsStat fs (renameTargetPath filePath (jsTrim newName) k)).isSome then
        .error (jstr "同名文件或文件夹已存在")
      else .ok (true, renameEntry fs filePath (renameTargetPath filePath (jsTrim newName) k))


/-! ## XML escaping (lines 811–818, `escapeXml`) -/

/-- JavaScript `s.replace(/c/g, r)` for a single-character pattern and a
replacement without special `$` sequences. -/
def replaceAllC (s : JStr) (c : Char) (r : JStr) : JStr :=
  s.flatMap (fun x => if x = c then r else [x])

/-- Lines 811–818, `escapeXml`: five chained global replacements, the
ampersand first. -/
def escapeXml (s : JStr) : JStr :=
  replaceAllC (replaceAllC (replaceAllC (replaceAllC (replaceAllC s '&' (jstr "&amp;"))
    '<' (jstr "&lt;")) '>' (jstr "&gt;")) '"' (jstr "&quot;")) (Char.ofNat 39) (jstr "&apos;")

/-- Per-character description of the combined effect of the five
replacements (the ampersand pass running first means the entities the
later passes insert are never re-escaped). -/
def escChar (c : Char) : JStr :=
  if c = '&' then jstr "&amp;"
  else if c = '<' then jstr "&lt;"
  else if c = '>' then jstr "&gt;"
  else if c = '"' then jstr "&quot;"
  else if c = Char.ofNat 39 then jstr "&apos;"
  else [c]

theorem replaceAllC_append (a b : JStr) (c : Char) (r : JStr) :
    replaceAllC (a ++ b) c r = replaceAllC a c r ++ replaceAllC b c r := by
  simp [replaceAllC]

theorem escapeXml_append (a b : JStr) :
    escapeXml (a ++ b) = escapeXml a ++ escapeXml b := by
  simp only [escapeXml, replaceAllC_append]

theorem escapeXml_singleton (c : Char) : escapeXml [c] = escChar c := by
  by_cases h1 : c = '&'
  · subst h1
    decide
  · by_cases h2 : c = '<'
    · subst h2
      decide
    · by_cases h3 : c = '>'
      · subst h3
        decide
      · by_cases h4 : c = '"'
        · subst h4
          decide
        · by_cases h5 : c = Char.ofNat 39
          · subst h5
            decide
          · simp [escapeXml, replaceAllC, escChar, h1, h2, h3, h4, h5]

theorem escapeXml_eq_flatMap (s : JStr) : escapeXml s = s.flatMap escChar := by
  induction s with
  | nil => decide
  | cons c cs ih =>
    rw [show c :: cs = [c] ++ cs from rfl, escapeXml_append, escapeXml_singleton,
      List.flatMap_append, ih]
    congr 1
    simp

theorem escChar_no_raw (c : Char) :
    ∀ x ∈ escChar c, x ≠ '<' ∧ x ≠ '>' ∧ x ≠ '"' ∧ x ≠ Char.ofNat 39 := by
  rw [escChar]
  split
  · decide
  · split
    · decide
    · split
      · decide
      · split
        · decide
        · split
          · decide
          · intro x hx
            rcases List.mem_singleton.mp hx with rfl
            refine ⟨?_, ?_, ?_, ?_⟩ <;> assumption

theorem escapeXml_no_raw (s : JStr) :
    ∀ x ∈ escapeXml s, x ≠ '<' ∧ x ≠ '>' ∧ x ≠ '"' ∧ x ≠ Char.ofNat 39 := by
  intro x hx
  rw [escapeXml_eq_flatMap] at hx
  obtain ⟨c, _, hc⟩ := List.mem_flatMap.mp hx
  exact escChar_no_raw c x hc


/-! ## Watermarking (lines 822–1061, `addWatermarks`)

JavaScript numbers in the watermark options are embedded as `Int` (font
size, padding, angle — the code's `Math.round` is the identity on them)
and as `ℚ` for the fractional position pair, with `Math.round`
on the products modelled exactly (half rounds up).  The binary-float
inexactness of `min(w,h)*0.05` versus the rational `m/20` can differ
only on exact-half boundaries, which no claim touches.  The sharp
metadata and composite calls are the consumed codec capability; each
written file is also recorded as an `(outputPath, svg)` event so that
properties of the embedded overlay can be stated. -/

inductive WatermarkPosition where
  | topLeft
  | topRight
  | bottomLeft
  | bottomRight
  | center
deriving DecidableEq, Repr

inductive FileItemType where
  | folder
  | image
deriving DecidableEq, Repr

/-- The `FileItem` fields `addWatermarks` reads (`name`/`imageBase64`
are never consulted). -/
structure FileItem where
  path : JStr
  ftype : FileItemType
deriving DecidableEq, Repr

structure WmOpts where
  fontSize : Option Int := none
  color : Option JStr := none
  position : Option WatermarkPosition := none
  padding : Option Int := none
  angle : Option Int := none
  xRatio : Option ℚ := none
  yRatio : Option ℚ := none
deriving DecidableEq

/-- JavaScript template interpolation of an integer. -/
def intDigits (i : Int) : JStr :=
  if i < 0 then '-' :: natDigits i.natAbs else natDigits i.toNat

/-- JavaScript `Math.round`: half rounds toward positive infinity. -/
def jsRound (q : ℚ) : Int := Int.floor (q + 1 / 2)

/-- Clamp `Math.max(0, Math.min(1, q))`. -/
def clamp01 (q : ℚ) : ℚ := max 0 (min 1 q)

/-- The SVG template shared by `buildWatermarkSvg` (line 872) and
`buildWatermarkSvgAt` (line 887). -/
def svgString (width height : Nat) (x y : Int) (anchor baselineStr : JStr) (fontSize : Int)
    (color : JStr) (rotate : Int) (text : JStr) : JStr :=
  jstr "<svg xmlns=\"http://www.w3.org/2000/svg\" width=\"" ++ natDigits width ++
    jstr "\" height=\"" ++ natDigits height ++ jstr "\"><text x=\"" ++ intDigits x ++
    jstr "\" y=\"" ++ intDigits y ++ jstr "\" text-anchor=\"" ++ anchor ++
    jstr "\" dominant-baseline=\"" ++ baselineStr ++
    jstr "\" font-family=\"sans-serif\" font-size=\"" ++ intDigits fontSize ++
    jstr "\" fill=\"" ++ color ++
    jstr "\" paint-order=\"stroke\" stroke=\"rgba(0,0,0,0.5)\" stroke-width=\"2\" transform=\"rotate(" ++
    intDigits rotate ++ jstr " " ++ intDigits x ++ jstr " " ++ intDigits y ++ jstr ")\">" ++
    text ++ jstr "</text></svg>"

/-- Lines 829–874, `buildWatermarkSvg`: anchor-positioned overlay.
`Math.round(width / 2)` on a natural is `(width + 1) / 2`. -/
def buildWatermarkSvg (width height : Nat) (text color : JStr) (fontSize : Int)
    (position : WatermarkPosition) (padding angle : Int) : JStr :=
  match position with
  | .topLeft =>
    svgString width height padding (padding + fontSize) (jstr "start") (jstr "alphabetic")
      fontSize color angle text
  | .topRight =>
    svgString width height ((width : Int) - padding) (padding + fontSize) (jstr "end")
      (jstr "alphabetic") fontSize color angle text
  | .bottomLeft =>
    svgString width height padding ((height : Int) - padding) (jstr "start")
      (jstr "alphabetic") fontSize color angle text
  | .bottomRight =>
    svgString width height ((width : Int) - padding) ((height : Int) - padding) (jstr "end")
      (jstr "alphabetic") fontSize color angle text
  | .center =>
    svgString width height (((width + 1) / 2 : Nat) : Int) (((height + 1) / 2 : Nat) : Int)
      (jstr "middle") (jstr "middle") fontSize color angle text

/-- Lines 876–889, `buildWatermarkSvgAt`: coordinate-positioned overlay. -/
def buildWatermarkSvgAt (width height : Nat) (text color : JStr) (fontSize : Int)
    (x y angle : Int) : JStr :=
  svgString width height x y (jstr "middle") (jstr "middle") fontSize color angle text

/-- Line 959–962 default padding `max(10, round(min(w,h) * 0.03))`. -/
def wmPaddingDefault (width height : Nat) : Int := max 10 (((6 * min width height + 100) / 200 : Nat) : Int)

/-- Line 963–966 default font size `max(16, round(min(w,h) * 0.05))`. -/
def wmFontDefault (width height : Nat) : Int := max 16 (((min width height + 10) / 20 : Nat) : Int)

/-- Lines 967–970: explicit positive font size, else the default. -/
def wmFontSize (o : WmOpts) (width height : Nat) : Int :=
  match o.fontSize with
  | some v => if 0 < v then v else wmFontDefault width height
  | none => wmFontDefault width height

/-- Lines 971–974: trimmed non-empty colour, else semi-transparent white. -/
def wmColor (o : WmOpts) : JStr :=
  match o.color with
  | some c => if jsTrim c ≠ [] then jsTrim c else jstr "rgba(255,255,255,0.75)"
  | none => jstr "rgba(255,255,255,0.75)"

/-- Line 975: `opts?.angle ?? 0`. -/
def wmAngle (o : WmOpts) : Int := o.angle.getD 0

/-- Line 996: `opts?.position ?? "bottom-right"`. -/
def wmPosition (o : WmOpts) : WatermarkPosition := o.position.getD .bottomRight

/-- Lines 997–1000: explicit positive padding, else the default. -/
def wmPadding (o : WmOpts) (width height : Nat) : Int :=
  match o.padding with
  | some v => if 0 < v then v else wmPaddingDefault width height
  | none => wmPaddingDefault width height

/-- Lines 976–1011: choose the overlay builder — the precise fractional
pair when both ratios are numbers, the anchor placement otherwise. -/
def wmSvg (safeText : JStr) (o : WmOpts) (width height : Nat) : JStr :=
  match o.xRatio, o.yRatio with
  | some xr, some yr =>
    buildWatermarkSvgAt width height safeText (wmColor o) (wmFontSize o width height)
      (jsRound ((width : ℚ) * clamp01 xr)) (jsRound ((height : ℚ) * clamp01 yr)) (wmAngle o)
  | _, _ =>
    buildWatermarkSvg width height safeText (wmColor o) (wmFontSize o width height)
      (wmPosition o) (wmPadding o width height) (wmAngle o)

/-- Sharp metadata: width and height of an image (`meta.width ?? 0`
turns an absent dimension into `0`). -/
def WmMeta := JStr → Nat × Nat

/-- Sharp composite-and-write: `none` on success, the thrown message
otherwise. -/
def WmComp := JStr → Option JStr

/-- Lines 933–1058: one watermark task, its result, the filesystem after
it, and the `(outputPath, svg)` events it wrote. -/
def wmOne (meta : WmMeta) (comp : WmComp) (safeText : JStr) (opts : WmOpts)
    (targetDir : JStr) (fs : FS) (file : FileItem) :
    ItemResult × FS × List (JStr × JStr) :=
  if file.ftype ≠ .image then (failItem file.path (jstr "not an image"), fs, [])
  else
    match fsStat fs file.path with
    | none => (failItem file.path statMissingMsg, fs, [])
    | some k =>
      if k ≠ .file then (failItem file.path (jstr "not a file"), fs, [])
      else if (meta file.path).1 = 0 ∨ (meta file.path).2 = 0 then
        (failItem file.path (jstr "无法读取图片尺寸"), fs, [])
      else
        match nextWatermarkOutputPath fs targetDir file.path with
        | none => (failItem file.path (jstr "naming fuel exhausted"), fs, [])
        | some outputPath =>
          match ensureDir fs (dirnameL outputPath) with
          | .error e => (failItem file.path (jstr "无法创建输出目录: " ++ e), fs, [])
          | .ok fs1 =>
            match comp file.path with
            | some msg => (failItem file.path msg, fs1, [])
            | none =>
              ({ inputPath := file.path, outputPath := outputPath, success := true,
                 error := none }, fsWrite fs1 outputPath,
                [(outputPath, wmSvg safeText opts (meta file.path).1 (meta file.path).2)])

/-- Sequential fan-out over the file list, threading the filesystem and
collecting the write events in order. -/
def runAllW (step : FS → FileItem → ItemResult × FS × List (JStr × JStr)) :
    FS → List FileItem → List ItemResult × FS × List (JStr × JStr)
  | fs, [] => ([], fs, [])
  | fs, f :: rest =>
    ((step fs f).1 :: (runAllW step (step fs f).2.1 rest).1,
      (runAllW step (step fs f).2.1 rest).2.1,
      (step fs f).2.2 ++ (runAllW step (step fs f).2.1 rest).2.2)

/-- Lines 891–1061, `addWatermarks`: empty input short-circuits; the
batch-global text is trimmed and validated (non-empty, at most 10
UTF-16 units) before the output directory is resolved; only then is the
text escaped and the per-file jobs run. -/
def addWatermarks (meta : WmMeta) (comp : WmComp) (fs : FS) (files : List FileItem)
    (text : JStr) (outputDir : JStr) (opts : WmOpts) :
    Except JStr (BatchResult × FS × List (JStr × JStr)) :=
  if files.isEmpty then .ok ({ success := true, results := [] }, fs, [])
  else if jsTrim text = [] then
    .ok ({ success := false,
           results := files.map (fun f => failItem f.path (jstr "watermark text empty")) },
      fs, [])
  else if 10 < utf16Len (jsTrim text) then
    .ok ({ success := false,
           results := files.map (fun f => failItem f.path (jstr "watermark text too long")) },
      fs, [])
  else
    match resolveOutputDir fs outputDir with
    | .error e => .error e
    | .ok (targetDir, fs1) =>
      ((fun out => .ok ({ success := out.1.all (fun r => r.success), results := out.1 },
          out.2.1, out.2.2))
        (runAllW (wmOne meta comp (escapeXml (jsTrim text)) opts targetDir) fs1 files))


/-! ## Lemmas about the compression batch -/

theorem compressOne_inputPath (codec : Codec) (q : Nat) (targetDir : JStr) (fs : FS)
    (p : JStr) : (compressOne codec q targetDir fs p).1.inputPath = p := by
  unfold compressOne
  repeat' split
  all_goals rfl

theorem compressOne_fail_shape (codec : Codec) (q : Nat) (targetDir : JStr) (fs : FS)
    (p : JStr) : (compressOne codec q targetDir fs p).1.success = false →
    (compressOne codec q targetDir fs p).1.error.isSome = true ∧
    (compressOne codec q targetDir fs p).1.outputPath = [] := by
  unfold compressOne
  repeat' split
  all_goals simp [failItem]

theorem runAll_map_input (step : FS → JStr → ItemResult × FS)
    (hstep : ∀ fs p, (step fs p).1.inputPath = p) :
    ∀ (ps : List JStr) (fs : FS), (runAll step fs ps).1.map ItemResult.inputPath = ps := by
  intro ps
  induction ps with
  | nil =>
    intro fs
    rfl
  | cons p ps ih =>
    intro fs
    simp [runAll, hstep, ih]

theorem runAll_length (step : FS → JStr → ItemResult × FS) :
    ∀ (ps : List JStr) (fs : FS), (runAll step fs ps).1.length = ps.length := by
  intro ps
  induction ps with
  | nil =>
    intro fs
    rfl
  | cons p ps ih =>
    intro fs
    simp [runAll, ih]

theorem runAll_mem (step : FS → JStr → ItemResult × FS) (P : ItemResult → Prop)
    (hstep : ∀ fs p, P (step fs p).1) :
    ∀ (ps : List JStr) (fs : FS), ∀ r ∈ (runAll step fs ps).1, P r := by
  intro ps
  induction ps with
  | nil =>
    intro fs r h
    simp [runAll] at h
  | cons p ps ih =>
    intro fs r h
    rw [runAll] at h
    rcases List.mem_cons.mp h with rfl | h2
    · exact hstep fs p
    · exact ih _ r h2

/-! ## Concrete scenario inputs -/

/-- A codec for which every re-encode succeeds. -/
def allOkCodec : Codec := fun _ _ => none

def scenarioFS : FS := [⟨jstr "/d/a.jpg", .file, .normal⟩, ⟨jstr "/d", .dir, .normal⟩]

def scenarioFS1 : FS :=
  ⟨jstr "/out/a_压缩.jpg", .file, .normal⟩ :: ⟨jstr "/out", .dir, .normal⟩ :: scenarioFS

def scenarioFS2 : FS := ⟨jstr "/out/a_压缩_1.jpg", .file, .normal⟩ :: scenarioFS1

def scenarioResult1 : ItemResult :=
  { inputPath := jstr "/d/a.jpg", outputPath := jstr "/out/a_压缩.jpg", success := true,
    error := none }

def scenarioResult2 : ItemResult :=
  { inputPath := jstr "/d/a.jpg", outputPath := jstr "/out/a_压缩_1.jpg", success := true,
    error := none }

def tifFS : FS := [⟨jstr "/d/a.tif", .file, .normal⟩, ⟨jstr "/out", .dir, .normal⟩]

def tifResult : ItemResult :=
  { inputPath := jstr "/d/a.tif", outputPath := jstr "/out/a_压缩.tif", success := true,
    error := none }

def mixedFS : FS :=
  [⟨jstr "/d/a.gif", .file, .normal⟩, ⟨jstr "/d/b.jpg", .file, .normal⟩,
    ⟨jstr "/out", .dir, .normal⟩]

def mixedResultB : ItemResult :=
  { inputPath := jstr "/d/b.jpg", outputPath := jstr "/out/b_压缩.jpg", success := true,
    error := none }

instance {e a : Type} [DecidableEq e] [DecidableEq a] : DecidableEq (Except e a) :=
  fun x y =>
    match x, y with
    | .ok u, .ok v =>
      if h : u = v then .isTrue (by rw [h]) else
        .isFalse (fun hc => h (Except.ok.inj hc))
    | .error u, .error v =>
      if h : u = v then .isTrue (by rw [h]) else
        .isFalse (fun hc => h (Except.error.inj hc))
    | .ok _, .error _ => .isFalse (fun hc => Except.noConfusion hc)
    | .error _, .ok _ => .isFalse (fun hc => Except.noConfusion hc)

/-! ## Claims -/

/-- C1: for every submitted list of file tasks, `compressFiles` returns
one `ItemResult` per input in input order (their `inputPath`s are the
inputs), overall `success` is the conjunction of the item successes, and
an item failure is captured as a failure record (`success: false`, an
`error` message, empty `outputPath`) rather than propagating — the
remaining items still appear in the report. -/
theorem claim_C1_batch_results (codec : Codec) (fs : FS) (filePaths : List JStr)
    (outputDir : JStr) (quality : Option Nat) (br : BatchResult) (fs2 : FS)
    (h : compressFiles codec fs filePaths outputDir quality = .ok (br, fs2)) :
    br.results.map ItemResult.inputPath = filePaths ∧
    br.results.length = filePaths.length ∧
    br.success = br.results.all (fun r => r.success) ∧
    (∀ r ∈ br.results, r.success = false → r.error.isSome = true ∧ r.outputPath = []) := by
  rw [compressFiles.eq_def] at h
  split at h
  · next he =>
    have hnil : filePaths = [] := List.isEmpty_iff.mp he
    subst hnil
    have hpair := Except.ok.inj h
    have hbr : ({ success := true, results := [] } : BatchResult) = br :=
      congrArg Prod.fst hpair
    subst hbr
    refine ⟨rfl, rfl, rfl, ?_⟩
    intro r hr
    simp at hr
  · split at h
    · cases h
    · next targetDir fs1 heq =>
      simp only [Except.ok.injEq, Prod.mk.injEq] at h
      obtain ⟨hbr, hfs⟩ := h
      subst hbr
      refine ⟨?_, ?_, rfl, ?_⟩
      · exact runAll_map_input _ (compressOne_inputPath codec _ targetDir) filePaths fs1
      · exact runAll_length _ filePaths fs1
      · intro r hr hfail
        exact runAll_mem _
          (fun r => r.success = false → r.error.isSome = true ∧ r.outputPath = [])
          (fun fs3 p => compressOne_fail_shape codec _ targetDir fs3 p) filePaths fs1 r hr hfail

/-- C1 witness: the single-file scenario instantiated. -/
theorem claim_C1_witness :
    [scenarioResult1].map ItemResult.inputPath = [jstr "/d/a.jpg"] ∧
    [scenarioResult1].length = [jstr "/d/a.jpg"].length ∧
    ({ success := true, results := [scenarioResult1] } : BatchResult).success =
      [scenarioResult1].all (fun r => r.success) ∧
    (∀ r ∈ [scenarioResult1], r.success = false → r.error.isSome = true ∧ r.outputPath = []) :=
  claim_C1_batch_results allOkCodec scenarioFS [jstr "/d/a.jpg"] (jstr "/out") (some 80)
    { success := true, results := [scenarioResult1] } scenarioFS1 (by decide)

/-- C3: an empty task list short-circuits `compressFiles` to
`{success: true, results: []}` with the filesystem untouched (no output
directory is resolved or created — even an unresolvable directory
argument is never looked at), and `deleteFile []` returns `true` without
touching the filesystem. -/
theorem claim_C3_empty_inputs (codec : Codec) (fs : FS) (outputDir : JStr)
    (quality : Option Nat) :
    compressFiles codec fs [] outputDir quality = .ok ({ success := true, results := [] }, fs) ∧
    deleteFile fs [] = (true, fs) ∧
    resolveOutputDir fs (jstr "") = .error (jstr "输出目录路径不能为空") ∧
    compressFiles codec fs [] (jstr "") quality = .ok ({ success := true, results := [] }, fs) :=
  ⟨rfl, rfl, rfl, rfl⟩

/-- C5: when the computed rename target equals the source path,
`renameFile` returns `true` and performs no filesystem mutation — in
particular the existing entry at the target (the source itself) does not
trigger the duplicate-name failure. -/
theorem claim_C5_rename_self_noop (fs : FS) (filePath newName : JStr) (k : EntKind)
    (h0 : filePath ≠ []) (h1 : jsTrim newName ≠ [])
    (h2 : (jsTrim newName).contains '/' = false)
    (h3 : (jsTrim newName).contains (Char.ofNat 92) = false)
    (hstat : fsStat fs filePath = some k)
    (htarget : renameTargetPath filePath (jsTrim newName) k = filePath) :
    renameFile fs filePath newName = .ok (true, fs) := by
  rw [renameFile, if_neg (not_or.mpr ⟨h0, h1⟩), if_neg (by rw [h2, h3]; decide), hstat]
  simp only [if_pos htarget]

/-- C5 witness. -/
theorem claim_C5_witness : renameFile scenarioFS (jstr "/d/a.jpg") (jstr "a") = .ok (true, scenarioFS) :=
  claim_C5_rename_self_noop scenarioFS (jstr "/d/a.jpg") (jstr "a") .file (by decide)
    (by decide) (by decide) (by decide) (by decide) (by decide)

/-- C6: when the computed rename target differs from the source and an
entry of exactly that name exists, `renameFile` fails with the
duplicate-name error (`同名文件或文件夹已存在`, the `AlreadyExists`
classification) — no auto-numbered sibling is generated and nothing is
renamed. -/
theorem claim_C6_rename_conflict (fs : FS) (filePath newName : JStr) (k : EntKind)
    (h0 : filePath ≠ []) (h1 : jsTrim newName ≠ [])
    (h2 : (jsTrim newName).contains '/' = false)
    (h3 : (jsTrim newName).contains (Char.ofNat 92) = false)
    (hstat : fsStat fs filePath = some k)
    (htarget : renameTargetPath filePath (jsTrim newName) k ≠ filePath)
    (hexists : (fsStat fs (renameTargetPath filePath (jsTrim newName) k)).isSome = true) :
    renameFile fs filePath newName = .error (jstr "同名文件或文件夹已存在") := by
  rw [renameFile, if_neg (not_or.mpr ⟨h0, h1⟩), if_neg (by rw [h2, h3]; decide), hstat]
  simp only [if_neg htarget, if_pos hexists]

/-- C6 witness. -/
theorem claim_C6_witness :
    renameFile mixedFS (jstr "/d/a.gif") (jstr "b.jpg") = .error (jstr "同名文件或文件夹已存在") :=
  claim_C6_rename_conflict mixedFS (jstr "/d/a.gif") (jstr "b.jpg") .file (by decide)
    (by decide) (by decide) (by decide) (by decide) (by decide) (by decide)

/-- C7 counterexample: the format check does not accept *exactly*
jpg/jpeg/png/webp/tiff/avif — the distinct extension `.tif` is also
accepted, and compressing `/d/a.tif` succeeds instead of producing the
per-item `unsupported format` failure the claim requires for any other
extension. -/
theorem claim_C7_counterexample :
    (jstr ".tif" ≠ jstr ".jpg" ∧ jstr ".tif" ≠ jstr ".jpeg" ∧ jstr ".tif" ≠ jstr ".png" ∧
      jstr ".tif" ≠ jstr ".webp" ∧ jstr ".tif" ≠ jstr ".tiff" ∧ jstr ".tif" ≠ jstr ".avif") ∧
    isSupportedFormat (jstr ".tif") = true ∧
    compressFiles allOkCodec tifFS [jstr "/d/a.tif"] (jstr "/out") none =
      .ok ({ success := true, results := [tifResult] },
        ⟨jstr "/out/a_压缩.tif", .file, .normal⟩ :: tifFS) := by
  decide

/-- C7 amended: the format check accepts exactly the seven extensions
jpg/jpeg/png/webp/tif/tiff/avif, case-insensitively; a regular file
whose lowercased extension is outside this set yields the per-item
failure `unsupported format`; and such a failure does not abort the
batch — a mixed batch still reports one result per input. -/
theorem claim_C7_amended :
    (∀ ext : JStr, isSupportedFormat ext = true ↔
      lowerStr ext ∈ [jstr ".jpg", jstr ".jpeg", jstr ".png", jstr ".webp", jstr ".tif",
        jstr ".tiff", jstr ".avif"]) ∧
    (∀ (codec : Codec) (q : Nat) (targetDir : JStr) (fs : FS) (p : JStr),
      fsStat fs p = some .file →
      isSupportedFormat (lowerStr (extnameL p)) = false →
      (compressOne codec q targetDir fs p).1 = failItem p (jstr "unsupported format")) ∧
    compressFiles allOkCodec mixedFS [jstr "/d/a.gif", jstr "/d/b.jpg"] (jstr "/out") none =
      .ok ({ success := false,
             results := [failItem (jstr "/d/a.gif") (jstr "unsupported format"), mixedResultB] },
        ⟨jstr "/out/b_压缩.jpg", .file, .normal⟩ :: mixedFS) := by
  refine ⟨?_, ?_, by decide⟩
  · intro ext
    simp [isSupportedFormat]
  · intro codec q targetDir fs p hstat hun
    rw [compressOne, hstat]
    simp only [ne_eq, not_true_eq_false, if_neg, hun]
    simp

/-- C7 amended witness: the check rejects `.gif` on a regular file. -/
theorem claim_C7_amended_witness :
    (compressOne allOkCodec 80 (jstr "/out") mixedFS (jstr "/d/a.gif")).1 =
      failItem (jstr "/d/a.gif") (jstr "unsupported format") :=
  claim_C7_amended.2.1 allOkCodec 80 (jstr "/out") mixedFS (jstr "/d/a.gif") (by decide)
    (by decide)


/-- C2: the compress naming policy.  Freshness (a returned candidate
never exists at selection time), totality, the three start-number rules
of the `_压缩` tag match (untagged bases start untagged, a tagged base
without a number continues at `_1`, a tagged base with number `n`
continues at `n + 1`), and the concrete scenario: compressing
`/d/a.jpg` into a fresh `/out` writes `/out/a_压缩.jpg`, and re-running
the same call writes `/out/a_压缩_1.jpg`. -/
theorem claim_C2_nextOutputPath :
    (∀ (fs : FS) (outputDir inputPath p : JStr),
      nextOutputPath fs outputDir inputPath = some p → fsStat fs p = none) ∧
    (∀ (fs : FS) (outputDir inputPath : JStr),
      (nextOutputPath fs outputDir inputPath).isSome = true) ∧
    (∀ base : JStr, tagMatch base compressTag = none → tagStart base compressTag = (base, 0)) ∧
    (∀ base root : JStr, tagMatch base compressTag = some (root, none) →
      tagStart base compressTag = (root, 1)) ∧
    (∀ base root ds : JStr, tagMatch base compressTag = some (root, some ds) →
      tagStart base compressTag = (root, digitsVal ds + 1)) ∧
    compressFiles allOkCodec scenarioFS [jstr "/d/a.jpg"] (jstr "/out") (some 80) =
      .ok ({ success := true, results := [scenarioResult1] }, scenarioFS1) ∧
    compressFiles allOkCodec scenarioFS1 [jstr "/d/a.jpg"] (jstr "/out") (some 80) =
      .ok ({ success := true, results := [scenarioResult2] }, scenarioFS2) := by
  refine ⟨?_, ?_, ?_, ?_, ?_, by decide, by decide⟩
  · intro fs outputDir inputPath p h
    exact nextTagged_fresh h
  · intro fs outputDir inputPath
    exact nextTagged_total fs outputDir inputPath compressTag (extnameL inputPath)
  · intro base h
    unfold tagStart
    rw [h]
  · intro base root h
    unfold tagStart
    rw [h]
  · intro base root ds h
    unfold tagStart
    rw [h]

/-- C2 witness: the freshness and start-number rules at concrete inputs. -/
theorem claim_C2_witness :
    fsStat scenarioFS1 (jstr "/out/a_压缩_1.jpg") = none ∧
    tagStart (jstr "a") compressTag = (jstr "a", 0) ∧
    tagStart (jstr "a_压缩") compressTag = (jstr "a", 1) ∧
    tagStart (jstr "a_压缩_3") compressTag = (jstr "a", digitsVal (jstr "3") + 1) :=
  ⟨claim_C2_nextOutputPath.1 scenarioFS1 (jstr "/out") (jstr "/d/a.jpg") _ (by decide),
    claim_C2_nextOutputPath.2.2.1 (jstr "a") (by decide),
    claim_C2_nextOutputPath.2.2.2.1 (jstr "a_压缩") (jstr "a") (by decide),
    claim_C2_nextOutputPath.2.2.2.2.1 (jstr "a_压缩_3") (jstr "a") (jstr "3") (by decide)⟩

/-- Every candidate of the shared naming core is an absolute path whose
parent is the output directory. -/
theorem nextTagged_in_dir {fs : FS} {outputDir inputPath tag ext p : JStr}
    (hdir : NormDir outputDir) (htag : ∀ c ∈ tag, c ≠ '/')
    (hext : ∀ c ∈ ext, c ≠ '/')
    (h : nextTagged fs outputDir inputPath tag ext = some p) :
    isAbsL p = true ∧ dirnameL p = outputDir := by
  simp only [nextTagged] at h
  obtain ⟨m, rfl⟩ := nextTaggedAux_shape fs outputDir _ tag ext _ _ p h
  have hseg : ∀ c ∈ candName (tagStart (baseNoExtL inputPath) tag).1 tag ext m, c ≠ '/' :=
    candName_no_slash (tagStart_root_no_slash inputPath tag) htag hext m
  exact ⟨isAbsL_joinP hdir.abs _, dirnameL_joinP hdir hseg⟩

/-- C8: every candidate path returned by `nextOutputPath`,
`nextConvertedOutputPath` or `nextWatermarkOutputPath` is an absolute
path whose `path.dirname` is exactly the resolved output directory —
generated output names never escape the output directory. -/
theorem claim_C8_names_stay_in_dir (fs : FS) (outputDir inputPath targetExt p : JStr)
    (hdir : NormDir outputDir) (hext : ∀ c ∈ targetExt, c ≠ '/') :
    (nextOutputPath fs outputDir inputPath = some p →
      isAbsL p = true ∧ dirnameL p = outputDir) ∧
    (nextConvertedOutputPath fs outputDir inputPath targetExt = some p →
      isAbsL p = true ∧ dirnameL p = outputDir) ∧
    (nextWatermarkOutputPath fs outputDir inputPath = some p →
      isAbsL p = true ∧ dirnameL p = outputDir) := by
  refine ⟨fun h => ?_, fun h => ?_, fun h => ?_⟩
  · exact nextTagged_in_dir hdir (by decide) (extnameL_no_slash inputPath) h
  · exact nextTagged_in_dir hdir (by decide) hext h
  · exact nextTagged_in_dir hdir (by decide) (extnameL_no_slash inputPath) h

/-- C8 witness. -/
theorem claim_C8_witness :
    isAbsL (jstr "/out/a_压缩.jpg") = true ∧ dirnameL (jstr "/out/a_压缩.jpg") = jstr "/out" :=
  (claim_C8_names_stay_in_dir [] (jstr "/out") (jstr "/d/a.jpg") (jstr ".jpg")
    (jstr "/out/a_压缩.jpg") (Or.inr ⟨by decide, by decide⟩) (by decide)).1 (by decide)

/-! ## Lemmas about the watermark batch -/

theorem svgString_embeds (width height : Nat) (x y : Int) (anchor baselineStr : JStr)
    (fontSize : Int) (color : JStr) (rotate : Int) (text : JStr) :
    ∃ pre post, svgString width height x y anchor baselineStr fontSize color rotate text =
      pre ++ text ++ post :=
  ⟨_, _, rfl⟩

theorem wmSvg_embeds (safeText : JStr) (o : WmOpts) (width height : Nat) :
    ∃ pre post, wmSvg safeText o width height = pre ++ safeText ++ post := by
  unfold wmSvg
  split
  · exact svgString_embeds _ _ _ _ _ _ _ _ _ _
  · unfold buildWatermarkSvg
    split <;> exact svgString_embeds _ _ _ _ _ _ _ _ _ _

theorem wmOne_events (meta : WmMeta) (comp : WmComp) (safeText : JStr) (opts : WmOpts)
    (targetDir : JStr) (fs : FS) (file : FileItem) :
    ∀ ev ∈ (wmOne meta comp safeText opts targetDir fs file).2.2,
      ∃ pre post, ev.2 = pre ++ safeText ++ post := by
  intro ev hev
  unfold wmOne at hev
  repeat' split at hev
  all_goals first
    | exact absurd hev (List.not_mem_nil ev)
    | (rcases List.mem_singleton.mp hev with rfl
       exact wmSvg_embeds safeText opts _ _)

theorem runAllW_events (step : FS → FileItem → ItemResult × FS × List (JStr × JStr))
    (P : JStr × JStr → Prop) (hstep : ∀ fs f, ∀ ev ∈ (step fs f).2.2, P ev) :
    ∀ (files : List FileItem) (fs : FS), ∀ ev ∈ (runAllW step fs files).2.2, P ev := by
  intro files
  induction files with
  | nil =>
    intro fs ev h
    simp [runAllW] at h
  | cons f rest ih =>
    intro fs ev h
    rw [runAllW] at h
    rcases List.mem_append.mp h with h2 | h2
    · exact hstep fs f ev h2
    · exact ih _ ev h2

/-- C4: a watermark batch over a non-empty file list whose trimmed text
is longer than 10 UTF-16 units fails uniformly — `success: false`, every
item's result marked failed with the `watermark text too long` error —
with the filesystem untouched and no file written. -/
theorem claim_C4_watermark_text_too_long (meta : WmMeta) (comp : WmComp) (fs : FS)
    (files : List FileItem) (text outputDir : JStr) (opts : WmOpts)
    (hne : files ≠ []) (hlen : 10 < utf16Len (jsTrim text)) :
    addWatermarks meta comp fs files text outputDir opts =
      .ok ({ success := false,
             results := files.map (fun f => failItem f.path (jstr "watermark text too long")) },
        fs, []) ∧
    (∀ r ∈ files.map (fun f => failItem f.path (jstr "watermark text too long")),
      r.success = false ∧ r.error = some (jstr "watermark text too long")) := by
  have hne2 : ¬files.isEmpty = true := by
    simp only [List.isEmpty_iff]
    exact hne
  have htne : ¬jsTrim text = [] := by
    intro h0
    rw [h0] at hlen
    simp [utf16Len] at hlen
  constructor
  · unfold addWatermarks
    rw [if_neg hne2, if_neg htne, if_pos hlen]
  · intro r hr
    obtain ⟨f, _, rfl⟩ := List.mem_map.mp hr
    exact ⟨rfl, rfl⟩

def wmScenarioFS : FS := [⟨jstr "/d/a.jpg", .file, .normal⟩, ⟨jstr "/out", .dir, .normal⟩]

def wmFile : FileItem := ⟨jstr "/d/a.jpg", .image⟩

def wmMeta0 : WmMeta := fun _ => (100, 50)

def wmComp0 : WmComp := fun _ => none

/-- C4 witness: an 11-character text on one file. -/
theorem claim_C4_witness :
    addWatermarks wmMeta0 wmComp0 wmScenarioFS [wmFile] (jstr "12345678901") (jstr "/out")
        {} =
      .ok ({ success := false,
             results := [wmFile].map (fun f => failItem f.path (jstr "watermark text too long")) },
        wmScenarioFS, []) ∧
    (∀ r ∈ [wmFile].map (fun f => failItem f.path (jstr "watermark text too long")),
      r.success = false ∧ r.error = some (jstr "watermark text too long")) :=
  claim_C4_watermark_text_too_long wmMeta0 wmComp0 wmScenarioFS [wmFile]
    (jstr "12345678901") (jstr "/out") {} (by decide) (by decide)

/-- C10: `addWatermarks` validates the trimmed text (non-empty, at most
10 units) before resolving the output directory: a call over a
non-empty file list failing either check returns the uniform failure
result with the filesystem untouched and no event written, and the
result does not depend on the output-directory argument at all. -/
theorem claim_C10_watermark_validates_first (meta : WmMeta) (comp : WmComp) (fs : FS)
    (files : List FileItem) (text outputDir : JStr) (opts : WmOpts)
    (hne : files ≠ []) (hbad : jsTrim text = [] ∨ 10 < utf16Len (jsTrim text)) :
    ∃ msg, addWatermarks meta comp fs files text outputDir opts =
        .ok ({ success := false, results := files.map (fun f => failItem f.path msg) },
          fs, []) ∧
      (∀ outputDir2 : JStr, addWatermarks meta comp fs files text outputDir2 opts =
        addWatermarks meta comp fs files text outputDir opts) := by
  have hne2 : ¬files.isEmpty = true := by
    simp only [List.isEmpty_iff]
    exact hne
  rcases hbad with hempty | hlen
  · refine ⟨jstr "watermark text empty", ?_, ?_⟩
    · unfold addWatermarks
      rw [if_neg hne2, if_pos hempty]
    · intro outputDir2
      unfold addWatermarks
      rw [if_neg hne2, if_pos hempty, if_neg hne2, if_pos hempty]
  · have htne : ¬jsTrim text = [] := by
      intro h0
      rw [h0] at hlen
      simp [utf16Len] at hlen
    refine ⟨jstr "watermark text too long", ?_, ?_⟩
    · unfold addWatermarks
      rw [if_neg hne2, if_neg htne, if_pos hlen]
    · intro outputDir2
      unfold addWatermarks
      rw [if_neg hne2, if_neg htne, if_pos hlen, if_neg hne2, if_neg htne, if_pos hlen]

/-- C10 witness: whitespace-only text on one file. -/
theorem claim_C10_witness :
    ∃ msg, addWatermarks wmMeta0 wmComp0 wmScenarioFS [wmFile] (jstr "   ") (jstr "/out")
        {} =
        .ok ({ success := false, results := [wmFile].map (fun f => failItem f.path msg) },
          wmScenarioFS, []) ∧
      (∀ outputDir2 : JStr, addWatermarks wmMeta0 wmComp0 wmScenarioFS [wmFile] (jstr "   ")
          outputDir2 {} =
        addWatermarks wmMeta0 wmComp0 wmScenarioFS [wmFile] (jstr "   ") (jstr "/out") {}) :=
  claim_C10_watermark_validates_first wmMeta0 wmComp0 wmScenarioFS [wmFile] (jstr "   ")
    (jstr "/out") {} (by decide) (Or.inl (by decide))

/-- C9: `escapeXml` is the per-character entity substitution (the `&`
pass running first, so the entities inserted for the other four
characters are never re-escaped), its output contains no raw `<`, `>`,
`"` or `'`, and every SVG overlay a watermark batch writes embeds the
batch text only through `escapeXml` of its trimmed form. -/
theorem claim_C9_escapeXml_and_svg :
    (∀ s : JStr, escapeXml s = s.flatMap escChar) ∧
    (∀ (s : JStr) (x : Char), x ∈ escapeXml s →
      x ≠ '<' ∧ x ≠ '>' ∧ x ≠ '"' ∧ x ≠ Char.ofNat 39) ∧
    (∀ (meta : WmMeta) (comp : WmComp) (fs : FS) (files : List FileItem)
      (text outputDir : JStr) (opts : WmOpts) (br : BatchResult) (fs2 : FS)
      (evs : List (JStr × JStr)) (ev : JStr × JStr),
      addWatermarks meta comp fs files text outputDir opts = .ok (br, fs2, evs) →
      ev ∈ evs →
      ∃ pre post, ev.2 = pre ++ escapeXml (jsTrim text) ++ post) := by
  refine ⟨escapeXml_eq_flatMap, escapeXml_no_raw, ?_⟩
  intro meta comp fs files text outputDir opts br fs2 evs ev h hev
  unfold addWatermarks at h
  split at h
  · simp only [Except.ok.injEq, Prod.mk.injEq] at h
    obtain ⟨_, _, hevs⟩ := h
    subst hevs
    exact absurd hev (List.not_mem_nil ev)
  · split at h
    · simp only [Except.ok.injEq, Prod.mk.injEq] at h
      obtain ⟨_, _, hevs⟩ := h
      subst hevs
      exact absurd hev (List.not_mem_nil ev)
    · split at h
      · simp only [Except.ok.injEq, Prod.mk.injEq] at h
        obtain ⟨_, _, hevs⟩ := h
        subst hevs
        exact absurd hev (List.not_mem_nil ev)
      · split at h
        · cases h
        · next targetDir fs1 heq =>
          simp only [Except.ok.injEq, Prod.mk.injEq] at h
          obtain ⟨_, _, hevs⟩ := h
          subst hevs
          exact runAllW_events _ (fun ev => ∃ pre post, ev.2 = pre ++ escapeXml (jsTrim text) ++ post)
            (fun fs3 f => wmOne_events meta comp (escapeXml (jsTrim text)) opts targetDir fs3 f)
            files fs1 ev hev

/-- C9 witness: the SVG event written by a concrete watermark batch
embeds the escaped text. -/
theorem claim_C9_witness :
    ∃ pre post,
      ((jstr "/out/a_水印.jpg", wmSvg (escapeXml (jsTrim (jstr "a<b"))) {} 100 50) :
          JStr × JStr).2 =
        pre ++ escapeXml (jsTrim (jstr "a<b")) ++ post :=
  claim_C9_escapeXml_and_svg.2.2 wmMeta0 wmComp0 wmScenarioFS [wmFile] (jstr "a<b")
    (jstr "/out") {}
    { success := true,
      results := [⟨jstr "/d/a.jpg", jstr "/out/a_水印.jpg", true, none⟩] }
    (⟨jstr "/out/a_水印.jpg", .file, .normal⟩ :: wmScenarioFS)
    [(jstr "/out/a_水印.jpg", wmSvg (escapeXml (jsTrim (jstr "a<b"))) {} 100 50)]
    (jstr "/out/a_水印.jpg", wmSvg (escapeXml (jsTrim (jstr "a<b"))) {} 100 50)
    (by decide) (List.mem_singleton.mpr rfl)

end HandleFile
